import Mathlib

/-!
Verification of the audio segment extraction & encoding pipeline of the
sentence-splitter application (audioUtils: `sliceAudioBuffer`,
`floatTo16BitPCM`, `audioBufferToMp3`, `audioBufferToWav`; App:
`handleDownloadAll`).

Samples and times are modelled as exact rationals (`ℚ`); all the products
appearing in the code (a float32 sample times 32767 or 32768, seconds times
an integral sample rate) are exact in the double precision the source uses,
so the rational model is faithful.  JavaScript's `ToInt16`/`ToInt32`
coercions (the `Int16Array` store and `| 0`) are modelled explicitly as
truncation toward zero followed by the two's-complement wrap.
-/

namespace SentenceSplitter

/-- The canonical in-memory audio representation (Web Audio `AudioBuffer`):
`numberOfChannels`, `length` (frame count), integral `sampleRate`, and the
per-channel sample data. A structurally valid buffer has `numberOfChannels`
channels, each of `length` samples (`Valid` below). -/
structure AudioBuffer where
  numberOfChannels : ℕ
  length : ℕ
  sampleRate : ℕ
  channelData : List (List ℚ)
deriving DecidableEq, Repr

/-- Source `buffer.getChannelData(i)`; out-of-range channel indices (which would
throw in the host API) yield `[]`. -/
def getChannelData (b : AudioBuffer) (i : ℕ) : List ℚ :=
  b.channelData.getD i []

/-- Structural validity: the channel list has `numberOfChannels` entries,
each of `length` samples. -/
def AudioBuffer.Valid (b : AudioBuffer) : Prop :=
  b.channelData.length = b.numberOfChannels ∧
    ∀ ch ∈ b.channelData, ch.length = b.length

/-- Source `context.createBuffer(numCh, len, rate)`: a fresh all-zero (silent)
buffer. -/
def createBuffer (numCh len rate : ℕ) : AudioBuffer :=
  ⟨numCh, len, rate, List.replicate numCh (List.replicate len 0)⟩

/-- Source `sliceAudioBuffer(buffer, startSeconds, endSeconds, context)` from
audioUtils:
`startOffset = Math.max(0, Math.floor(startSeconds * rate))`,
`endOffset = Math.min(buffer.length, Math.ceil(endSeconds * rate))`,
`frameCount = endOffset - startOffset`; if `frameCount <= 0` return a
1-frame silent buffer, otherwise copy samples
`newData[i] = oldData[i + startOffset]` for `i < frameCount` per channel.
(An out-of-range source read, impossible on a valid buffer, yields `0` in
this model.) -/
def sliceAudioBuffer (b : AudioBuffer) (startSeconds endSeconds : ℚ) :
    AudioBuffer :=
  let rate := b.sampleRate
  let startOffset : ℤ := max 0 ⌊startSeconds * (rate : ℚ)⌋
  let endOffset : ℤ := min (b.length : ℤ) ⌈endSeconds * (rate : ℚ)⌉
  let frameCount : ℤ := endOffset - startOffset
  if frameCount ≤ 0 then
    createBuffer b.numberOfChannels 1 rate
  else
    { numberOfChannels := b.numberOfChannels
      length := frameCount.toNat
      sampleRate := rate
      channelData := (List.range b.numberOfChannels).map (fun channel =>
        (List.range frameCount.toNat).map (fun i =>
          (getChannelData b channel).getD (i + startOffset.toNat) 0)) }

/-- Truncation toward zero of a rational, as JavaScript number-to-integer
coercions do. -/
def jsTrunc (q : ℚ) : ℤ :=
  if q < 0 then ⌈q⌉ else ⌊q⌋

/-- JavaScript `ToInt16` (the conversion applied by an `Int16Array` store):
truncate toward zero, wrap modulo 2^16, reinterpret as signed. -/
def toInt16 (q : ℚ) : ℤ :=
  ((jsTrunc q + 32768) % 65536) - 32768

/-- JavaScript `ToInt32` (the `| 0` coercion): truncate toward zero, wrap
modulo 2^32, reinterpret as signed. -/
def toInt32 (q : ℚ) : ℤ :=
  ((jsTrunc q + 2147483648) % 4294967296) - 2147483648

/-- The per-sample quantization of `floatTo16BitPCM`:
`s = Math.max(-1, Math.min(1, input[i])); output[i] = s < 0 ? s * 0x8000 :
s * 0x7FFF` with the `Int16Array` store coercion. -/
def floatTo16BitPCMsample (x : ℚ) : ℤ :=
  let s := max (-1) (min 1 x)
  toInt16 (if s < 0 then s * 32768 else s * 32767)

/-- Source `floatTo16BitPCM(input)`: element-wise quantization to 16-bit PCM. -/
def floatTo16BitPCM (input : List ℚ) : List ℤ :=
  input.map floatTo16BitPCMsample

/-- The per-sample quantization inlined in `audioBufferToWav`:
`sample = Math.max(-1, Math.min(1, channels[i][pos]));
sample = (0.5 + sample < 0 ? sample * 32768 : sample * 32767) | 0`.
Note the branch condition is `0.5 + sample < 0`, i.e. `sample < -0.5`. -/
def wavQuantize (x : ℚ) : ℤ :=
  let sample := max (-1) (min 1 x)
  toInt32 (if (1 / 2 : ℚ) + sample < 0 then sample * 32768 else sample * 32767)

/-- The quantization rule as the specification states it (§4.3): clamp to
`[-1, 1]`; negative clamped values scale by 32768, others by 32767; truncate
toward zero.  Stated from the spec's words, for comparison with the two
source quantizers. -/
def specQuantize (x : ℚ) : ℤ :=
  let v := max (-1) (min 1 x)
  if v < 0 then jsTrunc (v * 32768) else jsTrunc (v * 32767)

/-- Source `DataView.setUint16(_, n, true)`: the low 16 bits of `n`,
little-endian. -/
def uint16LE (n : ℕ) : List ℕ :=
  [n % 256, n / 256 % 256]

/-- Source `DataView.setUint32(_, n, true)`: the low 32 bits of `n`,
little-endian. -/
def uint32LE (n : ℕ) : List ℕ :=
  [n % 256, n / 256 % 256, n / 256 ^ 2 % 256, n / 256 ^ 3 % 256]

/-- Source `DataView.setInt16(_, n, true)`: the low 16 bits of a signed value,
little-endian. -/
def int16LE (n : ℤ) : List ℕ :=
  uint16LE (n % 65536).toNat

/-- The 44 header bytes written by `audioBufferToWav` through
`setUint32`/`setUint16` in source order; `totalLength` is
`buffer.length * numOfChan * 2 + 44`.  The final field is written as
`length - pos - 4` with the write cursor `pos` at 40. -/
def wavHeader (totalLength numOfChan sampleRate : ℕ) : List ℕ :=
  uint32LE 0x46464952 ++        -- "RIFF"
  uint32LE (totalLength - 8) ++ -- file length - 8
  uint32LE 0x45564157 ++        -- "WAVE"
  uint32LE 0x20746d66 ++        -- "fmt " chunk
  uint32LE 16 ++                -- length = 16
  uint16LE 1 ++                 -- PCM (uncompressed)
  uint16LE numOfChan ++
  uint32LE sampleRate ++
  uint32LE (sampleRate * 2 * numOfChan) ++ -- avg. bytes/sec
  uint16LE (numOfChan * 2) ++   -- block-align
  uint16LE 16 ++                -- 16-bit
  uint32LE 0x61746164 ++        -- "data" chunk
  uint32LE (totalLength - 40 - 4)

/-- The data region of the `ArrayBuffer` produced by `audioBufferToWav`
(bytes 44 onward).  After the header writes the cursor `pos` is 44, and the
sample loop is `while (pos < buffer.length)` reading `channels[i][pos]` and
writing at byte `44 + offset` with `offset` advancing by 2 per sample: so
the quantized samples of frames `44 .. length-1` are written contiguously
from the start of the region, and the rest of the zero-initialised
`ArrayBuffer` region (`length * numOfChan * 2` bytes in all) stays zero. -/
def wavData (b : AudioBuffer) : List ℕ :=
  let written := (List.range' 44 (b.length - 44)).flatMap (fun pos =>
    (List.range b.numberOfChannels).flatMap (fun i =>
      int16LE (wavQuantize ((getChannelData b i).getD pos 0))))
  written ++ List.replicate (b.length * b.numberOfChannels * 2 - written.length) 0

/-- Source `audioBufferToWav(buffer)`: the byte content of the returned Blob — the
full `ArrayBuffer` of `buffer.length * numOfChan * 2 + 44` bytes: the
44-byte header followed by the data region. -/
def audioBufferToWav (b : AudioBuffer) : List ℕ :=
  wavHeader (b.length * b.numberOfChannels * 2 + 44) b.numberOfChannels
    b.sampleRate ++ wavData b

/-- Abstract interface of the lamejs `Mp3Encoder` object used by
`audioBufferToMp3`: constructed from (channels, sampleRate, kbps), a
stateful `encodeBuffer` taking one (mono) or two (stereo) sample arrays and
returning produced compressed bytes, and a final `flush`.  The library is
external to the repository, so it is kept fully abstract. -/
structure Mp3Codec (σ : Type) where
  make : ℕ → ℕ → ℕ → σ
  encodeBuffer : σ → List ℤ → Option (List ℤ) → σ × List ℕ
  flush : σ → List ℕ

/-- The encode loop of `audioBufferToMp3`:
`for (let i = 0; i < left.length; i += sampleBlockSize)` with
`sampleBlockSize = 1152`, taking `left.subarray(i, i + 1152)` (and in
stereo `right.subarray(i, i + 1152)`), calling the encoder, and pushing
the produced chunk onto `mp3Data` when its length is positive. -/
def encodeLoop {σ : Type} (c : Mp3Codec σ) (channels : ℕ) (st : σ)
    (left right : List ℤ) (acc : List (List ℕ)) (i : ℕ) :
    σ × List (List ℕ) :=
  if h : i < left.length then
    let leftChunk := (left.drop i).take 1152
    let rightChunk := (right.drop i).take 1152
    let r := if channels = 1 then c.encodeBuffer st leftChunk none
             else c.encodeBuffer st leftChunk (some rightChunk)
    let acc' := if 0 < r.2.length then acc ++ [r.2] else acc
    encodeLoop c channels r.1 left right acc' (i + 1152)
  else
    (st, acc)
termination_by left.length - i
decreasing_by omega

/-- Source `audioBufferToMp3(buffer)`: at most the first two channels are
quantized via `floatTo16BitPCM`; a fresh encoder is constructed with
`channels = Math.min(2, buffer.numberOfChannels)`, the buffer's sample
rate and `kbps = 128`; all blocks are encoded by `encodeLoop`; the flush
output is appended when non-empty; the Blob is the concatenation of the
accumulated chunks. -/
def audioBufferToMp3 {σ : Type} (c : Mp3Codec σ) (b : AudioBuffer) :
    List ℕ :=
  let channels := min 2 b.numberOfChannels
  let sampleRate := b.sampleRate
  let kbps := 128
  let st0 := c.make channels sampleRate kbps
  let left := floatTo16BitPCM (getChannelData b 0)
  let right := if 1 < channels then floatTo16BitPCM (getChannelData b 1)
               else []
  let r := encodeLoop c channels st0 left right [] 0
  let fl := c.flush r.1
  let mp3Data := if 0 < fl.length then r.2 ++ [fl] else r.2
  mp3Data.flatten

/-- Consecutive blocks of 1152 samples, the final partial block included:
the spec's block decomposition of a channel (§4.5). -/
def chunks1152 (l : List ℤ) : List (List ℤ) :=
  if h : l = [] then []
  else l.take 1152 :: chunks1152 (l.drop 1152)
termination_by l.length
decreasing_by
  simp only [List.length_drop]
  have : l.length ≠ 0 := fun h0 => h (List.eq_nil_of_length_eq_zero h0)
  omega

/-- Feeding a list of blocks — mono when `channels = 1`, otherwise with
the right-channel blocks in lock-step — to the stateful encoder, keeping
every non-empty produced chunk, in order (the spec's description of the
encode phase, §4.5). -/
def feedBlocks {σ : Type} (c : Mp3Codec σ) (channels : ℕ) :
    σ → List (List ℤ) → List (List ℤ) → σ × List (List ℕ)
  | st, [], _ => (st, [])
  | st, lb :: ls, rbs =>
    let r := if channels = 1 then c.encodeBuffer st lb none
             else c.encodeBuffer st lb (some (rbs.headD []))
    let rest := feedBlocks c channels r.1 ls rbs.tail
    (rest.1, (if 0 < r.2.length then [r.2] else []) ++ rest.2)

/-- The MP3 pipeline as the specification describes it (§4.5): quantize the
first `min 2 numberOfChannels` channels, split into consecutive 1152-frame
blocks (final partial block included), feed them to a fresh encoder made
with kbps 128 appending every non-empty produced chunk, flush, and
concatenate. Stated from the spec's words, for comparison with
`audioBufferToMp3`. -/
def mp3PipelineSpec {σ : Type} (c : Mp3Codec σ) (b : AudioBuffer) :
    List ℕ :=
  let channels := min 2 b.numberOfChannels
  let left := floatTo16BitPCM (getChannelData b 0)
  let right := if 1 < channels then floatTo16BitPCM (getChannelData b 1)
               else []
  let r := feedBlocks c channels (c.make channels b.sampleRate 128)
    (chunks1152 left) (chunks1152 right)
  let fl := c.flush r.1
  (if 0 < fl.length then r.2 ++ [fl] else r.2).flatten

/-- One entry of the `processedSegments` list as `handleDownloadAll` uses
it: the precomputed WAV blob and the sliced buffer kept for on-demand MP3
conversion. -/
structure ProcessedSegment where
  blob : List ℕ
  audioBuffer : AudioBuffer

/-- Requested batch format. -/
inductive DownloadFormat
  | wav
  | mp3
deriving DecidableEq

/-- Outcome of `handleDownloadAll`: the early return on an empty segment
list, a generated archive (the filename → bytes mapping handed to the
archiver), or the aggregate failure alert naming the 1-based number of the
failing segment (`Failed to convert segment ${index + 1} to MP3.`). -/
inductive DownloadOutcome
  | noAction
  | archive (files : List (String × List ℕ))
  | failure (segmentNumber : ℕ)
deriving DecidableEq

/-- The `for (let index = 0; ...)` loop of `handleDownloadAll`: WAV uses
the precomputed blob; MP3 converts on demand, and a conversion error
throws `Failed to convert segment ${index + 1} to MP3.`, which aborts the
loop — the guarded `zip.generateAsync` is never reached, so no archive is
produced. `encode` stands for `audioBufferToMp3` with its possible
failure (codec not constructible, or a block encode throwing). -/
def zipLoop (format : DownloadFormat)
    (encode : AudioBuffer → Except Unit (List ℕ)) :
    List ProcessedSegment → ℕ → List (String × List ℕ) → DownloadOutcome
  | [], _, files => .archive files
  | seg :: rest, index, files =>
    match format with
    | .wav =>
      zipLoop format encode rest (index + 1)
        (files ++ [("sentence-" ++ toString (index + 1) ++ ".wav", seg.blob)])
    | .mp3 =>
      match encode seg.audioBuffer with
      | .error _ => .failure (index + 1)
      | .ok blob =>
        zipLoop format encode rest (index + 1)
          (files ++ [("sentence-" ++ toString (index + 1) ++ ".mp3", blob)])

/-- Source `handleDownloadAll(format)`: returns immediately when
`processedSegments.length === 0`; otherwise runs the zip loop from index 0
with an empty archive mapping. -/
def handleDownloadAll (format : DownloadFormat)
    (encode : AudioBuffer → Except Unit (List ℕ))
    (segments : List ProcessedSegment) : DownloadOutcome :=
  if segments.length = 0 then .noAction
  else zipLoop format encode segments 0 []

/-! ### Quantizer lemmas -/

theorem jsTrunc_bounds (lo hi : ℤ) (q : ℚ) (hlo : (lo : ℚ) ≤ q)
    (hhi : q ≤ (hi : ℚ)) (hlo0 : lo ≤ 0) (hhi0 : 0 ≤ hi) :
    lo ≤ jsTrunc q ∧ jsTrunc q ≤ hi := by
  unfold jsTrunc
  split
  · rename_i hq
    constructor
    · exact_mod_cast le_trans hlo (Int.le_ceil q)
    · exact le_trans (Int.ceil_le.mpr (by exact_mod_cast le_of_lt hq)) hhi0
  · rename_i hq
    push_neg at hq
    constructor
    · exact le_trans hlo0 (Int.le_floor.mpr (by exact_mod_cast hq))
    · exact_mod_cast le_trans (Int.floor_le q) hhi

theorem toInt16_eq_jsTrunc {q : ℚ} (h1 : -32768 ≤ jsTrunc q)
    (h2 : jsTrunc q ≤ 32767) : toInt16 q = jsTrunc q := by
  unfold toInt16
  rw [Int.emod_eq_of_lt (by omega) (by omega)]
  omega

theorem toInt32_eq_jsTrunc {q : ℚ} (h1 : -2147483648 ≤ jsTrunc q)
    (h2 : jsTrunc q ≤ 2147483647) : toInt32 q = jsTrunc q := by
  unfold toInt32
  rw [Int.emod_eq_of_lt (by omega) (by omega)]
  omega

theorem clamp_bounds (x : ℚ) :
    -1 ≤ max (-1) (min 1 x) ∧ max (-1) (min 1 x) ≤ 1 :=
  ⟨le_max_left _ _, max_le (by norm_num) (min_le_left _ _)⟩

/-- Function `floatTo16BitPCM` computes exactly the spec's §4.3 rule: the
`Int16Array` store coercion never wraps because the clamped products lie in
`[-32768, 32767]`. -/
theorem floatTo16BitPCMsample_eq_spec (x : ℚ) :
    floatTo16BitPCMsample x = specQuantize x := by
  unfold floatTo16BitPCMsample specQuantize
  obtain ⟨hlo, hhi⟩ := clamp_bounds x
  set s := max (-1) (min 1 x) with hs
  dsimp only
  split
  · rename_i hneg
    have hb := jsTrunc_bounds (-32768) 0 (s * 32768)
      (by push_cast; nlinarith) (by push_cast; nlinarith)
      (by norm_num) (by norm_num)
    exact toInt16_eq_jsTrunc hb.1 (by omega)
  · rename_i hneg
    push_neg at hneg
    have hb := jsTrunc_bounds 0 32767 (s * 32767)
      (by push_cast; nlinarith) (by push_cast; nlinarith)
      (by norm_num) (by norm_num)
    exact toInt16_eq_jsTrunc (by omega) hb.2

/-- The rule the WAV encoder's inline quantizer actually computes: the
`| 0` coercion never wraps, and the branch condition `0.5 + sample < 0`
amounts to testing the clamped sample against `-0.5`, not `0`. -/
theorem wavQuantize_eq (x : ℚ) :
    wavQuantize x =
      if max (-1) (min 1 x) < -(1 / 2) then
        jsTrunc (max (-1) (min 1 x) * 32768)
      else
        jsTrunc (max (-1) (min 1 x) * 32767) := by
  unfold wavQuantize
  obtain ⟨hlo, hhi⟩ := clamp_bounds x
  set s := max (-1) (min 1 x) with hs
  dsimp only
  have hcond : ((1 / 2 : ℚ) + s < 0) ↔ (s < -(1 / 2)) :=
    ⟨fun h => by linarith, fun h => by linarith⟩
  rw [if_congr hcond rfl rfl]
  split
  · exact toInt32_eq_jsTrunc
      ((jsTrunc_bounds (-32768) 32768 _
        (by push_cast; nlinarith) (by push_cast; nlinarith)
        (by norm_num) (by norm_num)).1.trans' (by norm_num))
      ((jsTrunc_bounds (-32768) 32768 _
        (by push_cast; nlinarith) (by push_cast; nlinarith)
        (by norm_num) (by norm_num)).2.trans (by norm_num))
  · exact toInt32_eq_jsTrunc
      ((jsTrunc_bounds (-32768) 32767 _
        (by push_cast; nlinarith) (by push_cast; nlinarith)
        (by norm_num) (by norm_num)).1.trans' (by norm_num))
      ((jsTrunc_bounds (-32768) 32767 _
        (by push_cast; nlinarith) (by push_cast; nlinarith)
        (by norm_num) (by norm_num)).2.trans (by norm_num))

/-! ### Slicer lemmas -/

theorem slice_length (b : AudioBuffer) (s e : ℚ) :
    ((sliceAudioBuffer b s e).length : ℤ) =
      max 1 (min (b.length : ℤ) ⌈e * (b.sampleRate : ℚ)⌉ -
        max 0 ⌊s * (b.sampleRate : ℚ)⌋) := by
  unfold sliceAudioBuffer createBuffer
  dsimp only
  split
  · rename_i h
    simp only [AudioBuffer.length]
    omega
  · rename_i h
    simp only [AudioBuffer.length]
    rw [Int.toNat_of_nonneg (by omega)]
    omega

theorem slice_degenerate (b : AudioBuffer) (s e : ℚ)
    (h : min (b.length : ℤ) ⌈e * (b.sampleRate : ℚ)⌉ -
      max 0 ⌊s * (b.sampleRate : ℚ)⌋ ≤ 0) :
    sliceAudioBuffer b s e = createBuffer b.numberOfChannels 1 b.sampleRate := by
  unfold sliceAudioBuffer
  dsimp only
  rw [if_pos h]

/-! ### Concrete quantizer evaluations -/

theorem clamp_of_mem {x : ℚ} (h1 : -1 ≤ x) (h2 : x ≤ 1) :
    max (-1) (min 1 x) = x := by
  rw [min_eq_right h2, max_eq_right h1]

theorem wavQuantize_neg_quarter : wavQuantize (-(1 / 4)) = -8191 := by
  rw [wavQuantize_eq, clamp_of_mem (by norm_num) (by norm_num),
    if_neg (by norm_num), jsTrunc, if_pos (by norm_num), Int.ceil_eq_iff]
  norm_num

theorem specQuantize_neg_quarter : specQuantize (-(1 / 4)) = -8192 := by
  unfold specQuantize
  dsimp only
  rw [clamp_of_mem (by norm_num) (by norm_num), if_pos (by norm_num),
    jsTrunc, if_pos (by norm_num), Int.ceil_eq_iff]
  norm_num

theorem wavQuantize_neg_half : wavQuantize (-(1 / 2)) = -16383 := by
  rw [wavQuantize_eq, clamp_of_mem (by norm_num) (by norm_num),
    if_neg (by norm_num), jsTrunc, if_pos (by norm_num), Int.ceil_eq_iff]
  norm_num

theorem floatTo16BitPCMsample_neg_half :
    floatTo16BitPCMsample (-(1 / 2)) = -16384 := by
  rw [floatTo16BitPCMsample_eq_spec]
  unfold specQuantize
  dsimp only
  rw [clamp_of_mem (by norm_num) (by norm_num), if_pos (by norm_num),
    jsTrunc, if_pos (by norm_num), Int.ceil_eq_iff]
  norm_num

theorem wavQuantize_zero : wavQuantize 0 = 0 := by
  rw [wavQuantize_eq, clamp_of_mem (by norm_num) (by norm_num),
    if_neg (by norm_num), jsTrunc, if_neg (by norm_num)]
  norm_num

theorem wavQuantize_one : wavQuantize 1 = 32767 := by
  rw [wavQuantize_eq, clamp_of_mem (by norm_num) (by norm_num),
    if_neg (by norm_num), jsTrunc, if_neg (by norm_num), Int.floor_eq_iff]
  norm_num

/-! ### Claim C1 -/

/-- C1 (corrected, counterexample): the claimed quantization rule
(negative clamped values scale by 32768) disagrees with the WAV encoder's
inline quantizer at sample `-1/4`: the encoder's branch condition
`0.5 + sample < 0` selects the 32767 scale there, giving `-8191` instead
of the rule's `-8192`. -/
theorem wav_quantizer_differs_from_claimed_rule :
    wavQuantize (-(1 / 4)) ≠ specQuantize (-(1 / 4)) := by
  rw [wavQuantize_neg_quarter, specQuantize_neg_quarter]
  decide

/-- C1 (amended): for every sample, `floatTo16BitPCM` applies exactly the
clamp-then-scale rule (negative clamped values times 32768, others times
32767, truncated toward zero); the WAV encoder's inline quantizer applies
the same rule except that its negative-scale branch is taken only when the
clamped value is below `-1/2` (its condition is `0.5 + sample < 0`). -/
theorem quantization_rule_in_both_encoders (x : ℚ) :
    floatTo16BitPCMsample x = specQuantize x ∧
      wavQuantize x =
        (if max (-1) (min 1 x) < -(1 / 2) then
          jsTrunc (max (-1) (min 1 x) * 32768)
        else
          jsTrunc (max (-1) (min 1 x) * 32767)) :=
  ⟨floatTo16BitPCMsample_eq_spec x, wavQuantize_eq x⟩

/-! ### Claim C8 -/

/-- C8 (corrected, counterexample): the WAV encoder's quantizer and
`floatTo16BitPCM` are not the same function: at sample `-1/2` the former
gives `-16383` and the latter `-16384`. -/
theorem quantizers_differ_at_neg_half :
    wavQuantize (-(1 / 2)) ≠ floatTo16BitPCMsample (-(1 / 2)) := by
  rw [wavQuantize_neg_half, floatTo16BitPCMsample_neg_half]
  decide

/-- C8 (amended): the two quantizers agree on every sample whose clamped
value is nonnegative or below `-1/2`; they may disagree only on clamped
values in `[-1/2, 0)`, where the WAV encoder scales by 32767 but
`floatTo16BitPCM` scales by 32768. -/
theorem quantizers_agree_outside_gap (x : ℚ)
    (h : 0 ≤ max (-1) (min 1 x) ∨ max (-1) (min 1 x) < -(1 / 2)) :
    wavQuantize x = floatTo16BitPCMsample x := by
  rw [wavQuantize_eq, floatTo16BitPCMsample_eq_spec]
  unfold specQuantize
  dsimp only
  rcases h with h | h
  · rw [if_neg (by intro hc; exact absurd h (by push_neg; linarith)),
      if_neg (not_lt.mpr h)]
  · rw [if_pos h, if_pos (lt_of_lt_of_le h (by norm_num))]

/-- Witness for C8 (amended) at sample `1/2`. -/
theorem quantizers_agree_outside_gap_witness :
    wavQuantize (1 / 2) = floatTo16BitPCMsample (1 / 2) :=
  quantizers_agree_outside_gap (1 / 2)
    (Or.inl (by rw [clamp_of_mem (by norm_num) (by norm_num)]; norm_num))

/-! ### Claims C2, C5, C7 — the slicer -/

/-- A concrete mono buffer: 10 frames of silence at sample rate 1. -/
def buf10 : AudioBuffer := ⟨1, 10, 1, [List.replicate 10 0]⟩

/-- C2 (confirmed): for `0 ≤ start < end ≤ N/R` (positive integral rate
`R`), the sliced buffer's frame count is `⌈end·R⌉ − ⌊start·R⌋`, which
already lies in `[1, N]`, so the claimed clamp is the identity here. -/
theorem slice_frameCount_in_range (b : AudioBuffer) (s e : ℚ)
    (hR : 0 < b.sampleRate) (h0 : 0 ≤ s) (hlt : s < e)
    (hend : e ≤ (b.length : ℚ) / (b.sampleRate : ℚ)) :
    ((sliceAudioBuffer b s e).length : ℤ) =
      ⌈e * (b.sampleRate : ℚ)⌉ - ⌊s * (b.sampleRate : ℚ)⌋ ∧
    1 ≤ (sliceAudioBuffer b s e).length ∧
    (sliceAudioBuffer b s e).length ≤ b.length := by
  have hR' : (0 : ℚ) < (b.sampleRate : ℚ) := by exact_mod_cast hR
  have hfl : (0 : ℤ) ≤ ⌊s * (b.sampleRate : ℚ)⌋ :=
    Int.le_floor.mpr (by push_cast; exact mul_nonneg h0 (le_of_lt hR'))
  have hle : e * (b.sampleRate : ℚ) ≤ (b.length : ℚ) := by
    rw [le_div_iff₀ hR'] at hend
    exact hend
  have hcl : ⌈e * (b.sampleRate : ℚ)⌉ ≤ (b.length : ℤ) :=
    Int.ceil_le.mpr (by exact_mod_cast hle)
  have hlt2 : ⌊s * (b.sampleRate : ℚ)⌋ < ⌈e * (b.sampleRate : ℚ)⌉ := by
    have h1 : ((⌊s * (b.sampleRate : ℚ)⌋ : ℚ)) ≤ s * (b.sampleRate : ℚ) :=
      Int.floor_le _
    have h2 : e * (b.sampleRate : ℚ) ≤ ((⌈e * (b.sampleRate : ℚ)⌉ : ℚ)) :=
      Int.le_ceil _
    have h3 : s * (b.sampleRate : ℚ) < e * (b.sampleRate : ℚ) :=
      mul_lt_mul_of_pos_right hlt hR'
    exact_mod_cast lt_of_le_of_lt h1 (lt_of_lt_of_le h3 h2)
  have hL := slice_length b s e
  refine ⟨?_, ?_, ?_⟩ <;> omega

/-- Witness for C2 on the concrete buffer `buf10` with range `[0, 1]`. -/
theorem slice_frameCount_in_range_witness :
    ((sliceAudioBuffer buf10 0 1).length : ℤ) =
      ⌈(1 : ℚ) * (buf10.sampleRate : ℚ)⌉ - ⌊(0 : ℚ) * (buf10.sampleRate : ℚ)⌋ ∧
    1 ≤ (sliceAudioBuffer buf10 0 1).length ∧
    (sliceAudioBuffer buf10 0 1).length ≤ buf10.length :=
  slice_frameCount_in_range buf10 0 1 (by decide) (by norm_num)
    (by norm_num) (by norm_num [buf10])

/-- C5 (confirmed): whenever the computed frame range is empty or inverted
(`endOffset − startOffset ≤ 0`), the slicer returns a buffer of exactly one
frame of silence per channel at the source sample rate.  The Lean model is
a total function, matching the source's never-raising early return. -/
theorem slice_empty_range_one_frame_silence (b : AudioBuffer) (s e : ℚ)
    (h : min (b.length : ℤ) ⌈e * (b.sampleRate : ℚ)⌉ -
      max 0 ⌊s * (b.sampleRate : ℚ)⌋ ≤ 0) :
    (sliceAudioBuffer b s e).length = 1 ∧
    (sliceAudioBuffer b s e).sampleRate = b.sampleRate ∧
    (sliceAudioBuffer b s e).numberOfChannels = b.numberOfChannels ∧
    (sliceAudioBuffer b s e).channelData =
      List.replicate b.numberOfChannels [0] := by
  rw [slice_degenerate b s e h]
  exact ⟨rfl, rfl, rfl, rfl⟩

/-- Witness for C5: `slice(buf10, 5, 5)` is a 1-frame silent buffer. -/
theorem slice_empty_range_one_frame_silence_witness :
    (sliceAudioBuffer buf10 5 5).length = 1 ∧
    (sliceAudioBuffer buf10 5 5).sampleRate = buf10.sampleRate ∧
    (sliceAudioBuffer buf10 5 5).numberOfChannels = buf10.numberOfChannels ∧
    (sliceAudioBuffer buf10 5 5).channelData =
      List.replicate buf10.numberOfChannels [0] :=
  slice_empty_range_one_frame_silence buf10 5 5 (by norm_num [buf10])

/-- C7 (corrected, counterexample): the claimed invariant uses
`round(end·R)`, but the slicer computes `ceil(end·R)`: on a 10-frame
buffer at rate 1 with range `[0, 5.4]` the slice has 6 frames while the
claimed formula gives `clamp(round(5.4) − 0, 1, 10) = 5`. -/
theorem slice_length_differs_from_round_formula :
    ((sliceAudioBuffer buf10 0 (27 / 5)).length : ℤ) ≠
      min (buf10.length : ℤ)
        (max 1 (round ((27 / 5 : ℚ) * (buf10.sampleRate : ℚ)) -
          ⌊(0 : ℚ) * (buf10.sampleRate : ℚ)⌋)) := by
  have hL := slice_length buf10 0 (27 / 5)
  have hc : (⌈(27 / 5 : ℚ) * ((buf10.sampleRate : ℕ) : ℚ)⌉ : ℤ) = 6 := by
    norm_num [buf10]
    rw [Int.ceil_eq_iff] <;> norm_num
  have hr : round ((27 / 5 : ℚ) * ((buf10.sampleRate : ℕ) : ℚ)) = 5 := by
    norm_num [buf10, round_eq]
  have hf : (⌊(0 : ℚ) * ((buf10.sampleRate : ℕ) : ℚ)⌋ : ℤ) = 0 := by
    norm_num
  rw [hr, hf]
  rw [hc, hf] at hL
  have hN : buf10.length = 10 := rfl
  rw [hN] at hL ⊢
  omega

/-- C7 (amended): for every source buffer with at least one frame and any
boundary, the slice's frame count equals
`max(1, min(N, ⌈end·R⌉) − max(0, ⌊start·R⌋))` — `ceil`, not `round`, with
each offset clamped before the subtraction — and is never zero and never
exceeds the source length. -/
theorem slice_length_invariant (b : AudioBuffer) (s e : ℚ)
    (hN : 1 ≤ b.length) :
    ((sliceAudioBuffer b s e).length : ℤ) =
      max 1 (min (b.length : ℤ) ⌈e * (b.sampleRate : ℚ)⌉ -
        max 0 ⌊s * (b.sampleRate : ℚ)⌋) ∧
    1 ≤ (sliceAudioBuffer b s e).length ∧
    (sliceAudioBuffer b s e).length ≤ b.length := by
  have hL := slice_length b s e
  refine ⟨hL, ?_, ?_⟩ <;> omega

/-- Witness for C7 (amended) on `buf10` with the degenerate range
`[7, 3]`. -/
theorem slice_length_invariant_witness :
    ((sliceAudioBuffer buf10 7 3).length : ℤ) =
      max 1 (min (buf10.length : ℤ) ⌈(3 : ℚ) * (buf10.sampleRate : ℚ)⌉ -
        max 0 ⌊(7 : ℚ) * (buf10.sampleRate : ℚ)⌋) ∧
    1 ≤ (sliceAudioBuffer buf10 7 3).length ∧
    (sliceAudioBuffer buf10 7 3).length ≤ buf10.length :=
  slice_length_invariant buf10 7 3 (by decide)

/-! ### WAV encoder lemmas -/

theorem wavHeader_length (t c s : ℕ) : (wavHeader t c s).length = 44 := by
  simp [wavHeader, uint32LE, uint16LE]

theorem wav_drop_44 (b : AudioBuffer) :
    (audioBufferToWav b).drop 44 = wavData b := by
  have h := List.drop_left
    (wavHeader (b.length * b.numberOfChannels * 2 + 44) b.numberOfChannels
      b.sampleRate) (wavData b)
  rwa [wavHeader_length] at h

theorem wavHeader_drop_40 (t c s : ℕ) :
    (wavHeader t c s).drop 40 = uint32LE (t - 40 - 4) := by
  refine List.drop_left' ?_
  simp [uint32LE, uint16LE]

theorem wavData_of_length_zero (b : AudioBuffer) (h : b.length = 0) :
    wavData b = [] := by
  unfold wavData
  rw [h]
  simp

theorem wav_length (b : AudioBuffer) :
    (audioBufferToWav b).length = 44 + (wavData b).length := by
  rw [audioBufferToWav, List.length_append, wavHeader_length]

/-! ### Claim C9 -/

/-- C9 (confirmed): `audioBufferToWav` is a total function in this model
(hence never raises), and on a zero-frame buffer it returns exactly the
44-byte header whose final `data` sub-chunk length field (bytes 40–43) is
zero, with nothing after it. -/
theorem wav_empty_buffer_minimal_header (b : AudioBuffer)
    (h : b.length = 0) :
    (audioBufferToWav b).length = 44 ∧
    (audioBufferToWav b).drop 40 = uint32LE 0 ∧
    (audioBufferToWav b).drop 44 = [] := by
  have hd : wavData b = [] := wavData_of_length_zero b h
  refine ⟨?_, ?_, ?_⟩
  · rw [wav_length, hd]
    rfl
  · rw [audioBufferToWav, hd, List.append_nil, h]
    have h40 := wavHeader_drop_40 (0 * b.numberOfChannels * 2 + 44)
      b.numberOfChannels b.sampleRate
    simpa using h40
  · rw [wav_drop_44, hd]

/-- A concrete empty stereo buffer at 44100 Hz. -/
def emptyBuf : AudioBuffer := ⟨2, 0, 44100, [[], []]⟩

/-- Witness for C9 on `emptyBuf`. -/
theorem wav_empty_buffer_minimal_header_witness :
    (audioBufferToWav emptyBuf).length = 44 ∧
    (audioBufferToWav emptyBuf).drop 40 = uint32LE 0 ∧
    (audioBufferToWav emptyBuf).drop 44 = [] :=
  wav_empty_buffer_minimal_header emptyBuf rfl

/-! ### Claim C3 -/

/-- A mono buffer of 45 frames at 8000 Hz whose first sample is `1.0`
and whose other samples are `0`. -/
def bugBuf : AudioBuffer := ⟨1, 45, 8000, [1 :: List.replicate 44 0]⟩

/-- C3 (code bug): on `bugBuf` the first two data-section bytes of the
encoded WAV are `[0, 0]`, not the little-endian quantization `[255, 127]`
of frame 0's sample `1.0` that frame-by-frame interleaving from frame 0
requires.  After the header writes the cursor `pos` is 44, and the sample
loop `while (pos < buffer.length)` reads `channels[i][pos]`, so the data
section holds frames 44.. instead of frames 0.. (here: frame 44, which is
silent). -/
theorem wav_data_section_skips_first_44_frames :
    ((audioBufferToWav bugBuf).drop 44).take 2 = [0, 0] ∧
    int16LE (wavQuantize ((getChannelData bugBuf 0).getD 0 0)) =
      [255, 127] := by
  constructor
  · rw [wav_drop_44]
    unfold wavData
    have h1 : bugBuf.length - 44 = 1 := rfl
    have h2 : (getChannelData bugBuf 0).getD 44 0 = 0 := rfl
    rw [h1, List.range'_one]
    simp only [List.flatMap_cons, List.flatMap_nil, List.append_nil]
    have h3 : bugBuf.numberOfChannels = 1 := rfl
    rw [h3, show List.range 1 = [0] from rfl]
    simp only [List.flatMap_cons, List.flatMap_nil, List.append_nil, h2,
      wavQuantize_zero]
    have h4 : int16LE 0 = [0, 0] := rfl
    rw [h4]
    rfl
  · have h5 : (getChannelData bugBuf 0).getD 0 0 = 1 := rfl
    rw [h5, wavQuantize_one]
    rfl

/-! ### MP3 encoder lemmas -/

theorem chunks1152_nil : chunks1152 [] = [] := by
  rw [chunks1152]
  simp

theorem chunks1152_cons (l : List ℤ) (h : l ≠ []) :
    chunks1152 l = l.take 1152 :: chunks1152 (l.drop 1152) := by
  rw [chunks1152]
  simp [h]

theorem chunks1152_headD (r : List ℤ) :
    (chunks1152 r).headD [] = r.take 1152 := by
  by_cases h : r = []
  · subst h
    rw [chunks1152_nil]
    rfl
  · rw [chunks1152_cons r h]
    rfl

theorem chunks1152_tail (r : List ℤ) :
    (chunks1152 r).tail = chunks1152 (r.drop 1152) := by
  by_cases h : r = []
  · subst h
    rw [chunks1152_nil]
    simp [chunks1152_nil]
  · rw [chunks1152_cons r h]
    rfl

/-- The index-stepping encode loop of `audioBufferToMp3` is the spec's
block decomposition: starting at offset `i`, it behaves like feeding the
1152-sample blocks of `left.drop i` (lock-step with those of
`right.drop i`) to the encoder, prefixed by the chunks already
accumulated. -/
theorem encodeLoop_eq_feedBlocks {σ : Type} (c : Mp3Codec σ) (channels : ℕ)
    (left right : List ℤ) :
    ∀ (n : ℕ) (st : σ) (acc : List (List ℕ)) (i : ℕ),
      left.length - i ≤ n →
      encodeLoop c channels st left right acc i =
        ((feedBlocks c channels st (chunks1152 (left.drop i))
            (chunks1152 (right.drop i))).1,
         acc ++ (feedBlocks c channels st
            (chunks1152 (left.drop i)) (chunks1152 (right.drop i))).2) := by
  intro n
  induction n with
  | zero =>
    intro st acc i hn
    have hge : ¬ i < left.length := by omega
    rw [encodeLoop, dif_neg hge]
    rw [List.drop_eq_nil_of_le (by omega), chunks1152_nil]
    simp [feedBlocks]
  | succ n ih =>
    intro st acc i hn
    by_cases hlt : i < left.length
    · rw [encodeLoop, dif_pos hlt]
      have hne : left.drop i ≠ [] := by
        intro hc
        have := congrArg List.length hc
        simp at this
        omega
      have hdrop : (left.drop i).drop 1152 = left.drop (i + 1152) := by
        rw [List.drop_drop, Nat.add_comm]
      have hdropr : (right.drop i).drop 1152 = right.drop (i + 1152) := by
        rw [List.drop_drop, Nat.add_comm]
      conv_rhs => rw [chunks1152_cons (left.drop i) hne, feedBlocks]
      dsimp only
      rw [chunks1152_headD, chunks1152_tail, hdropr, hdrop]
      rw [ih _ _ (i + 1152) (by omega)]
      generalize (if channels = 1 then
          c.encodeBuffer st ((left.drop i).take 1152) none
        else
          c.encodeBuffer st ((left.drop i).take 1152)
            (some ((right.drop i).take 1152))) = r
      obtain ⟨st1, out⟩ := r
      by_cases hout : 0 < out.length <;>
        simp [hout, List.append_assoc]
    · rw [encodeLoop, dif_neg hlt]
      rw [List.drop_eq_nil_of_le (by omega), chunks1152_nil]
      simp [feedBlocks]

/-! ### Claim C4 -/

/-- C4 (confirmed): `audioBufferToMp3` is exactly the spec's pipeline: it
quantizes at most the first `min 2 numberOfChannels` channels, feeds the
1152-frame blocks (including the final partial block) of the quantized
channels in increasing order and in lock-step to a freshly constructed
encoder at 128 kbps, keeps every non-empty produced chunk in order,
appends the non-empty flush output, and concatenates. -/
theorem mp3_driver_matches_spec_pipeline {σ : Type} (c : Mp3Codec σ)
    (b : AudioBuffer) :
    audioBufferToMp3 c b = mp3PipelineSpec c b := by
  unfold audioBufferToMp3 mp3PipelineSpec
  dsimp only
  rw [encodeLoop_eq_feedBlocks c (min 2 b.numberOfChannels) _ _
    (floatTo16BitPCM (getChannelData b 0)).length _ _ 0 (by omega)]
  simp only [List.drop_zero, List.nil_append]

/-! ### Batch orchestrator lemmas -/

theorem zipLoop_mp3_fails (encode : AudioBuffer → Except Unit (List ℕ)) :
    ∀ (segs : List ProcessedSegment) (idx : ℕ)
      (files : List (String × List ℕ)) (i : ℕ) (hi : i < segs.length),
      encode (segs.get ⟨i, hi⟩).audioBuffer = .error () →
      (∀ j (hj : j < i),
        ∃ bl, encode (segs.get ⟨j, by omega⟩).audioBuffer = .ok bl) →
      zipLoop .mp3 encode segs idx files = .failure (idx + i + 1) := by
  intro segs
  induction segs with
  | nil =>
    intro idx files i hi
    exact absurd hi (by simp)
  | cons seg rest ih =>
    intro idx files i hi hfail hok
    match i with
    | 0 =>
      have hfail0 : encode seg.audioBuffer = .error () := hfail
      rw [zipLoop, hfail0]
    | i' + 1 =>
      obtain ⟨bl, hbl⟩ := hok 0 (by omega)
      have hbl0 : encode seg.audioBuffer = .ok bl := hbl
      have hfail' : encode (rest.get ⟨i', by simpa using hi⟩).audioBuffer =
          .error () := hfail
      rw [zipLoop, hbl0]
      dsimp only
      rw [ih (idx + 1) _ i' (by simpa using hi) hfail'
        (fun j hj => hok (j + 1) (by omega))]
      congr 1
      omega

/-! ### Claim C6 -/

/-- C6 (confirmed): if MP3 conversion fails on segment `i` of a batch (all
earlier conversions succeeding), `handleDownloadAll` aborts at that
segment: the outcome is the single failure alert naming segment `i + 1`
(the error message is `Failed to convert segment ${index + 1} to MP3.`,
1-based as everywhere in the UI), and no archive byte stream is
produced. -/
theorem batch_aborts_on_failing_segment
    (encode : AudioBuffer → Except Unit (List ℕ))
    (segments : List ProcessedSegment) (i : ℕ) (hi : i < segments.length)
    (hfail : encode (segments.get ⟨i, hi⟩).audioBuffer = .error ())
    (hok : ∀ j (hj : j < i),
      ∃ bl, encode (segments.get ⟨j, by omega⟩).audioBuffer = .ok bl) :
    handleDownloadAll .mp3 encode segments = .failure (i + 1) ∧
    ∀ files, handleDownloadAll .mp3 encode segments ≠ .archive files := by
  have hne : ¬ segments.length = 0 := by omega
  have h := zipLoop_mp3_fails encode segments 0 [] i hi hfail hok
  rw [handleDownloadAll, if_neg hne]
  rw [h]
  refine ⟨by congr 1; omega, fun files hcontra => ?_⟩
  simp at hcontra

/-- An encode model for the C6 witness: fails exactly on zero-length
buffers. -/
def encodeW : AudioBuffer → Except Unit (List ℕ) := fun ab =>
  if ab.length = 0 then .error () else .ok []

/-- Segment list for the C6 witness: the second segment's buffer is the
empty buffer, on which `encodeW` fails. -/
def segsW : List ProcessedSegment := [⟨[], buf10⟩, ⟨[], emptyBuf⟩]

/-- Witness for C6: with two segments whose second MP3 conversion fails,
the batch outcome is the failure naming segment 2 and never an archive. -/
theorem batch_aborts_on_failing_segment_witness :
    handleDownloadAll .mp3 encodeW segsW = .failure 2 ∧
    ∀ files, handleDownloadAll .mp3 encodeW segsW ≠ .archive files :=
  batch_aborts_on_failing_segment encodeW segsW 1 (by decide) rfl
    (fun j hj => ⟨[], by
      have hj0 : j = 0 := by omega
      subst hj0
      rfl⟩)

/-! ### Claim C10 -/

/-- C10 (confirmed): on an empty segment list `handleDownloadAll` returns
immediately with no outcome produced — no archive, no failure — and the
result does not depend on the encoder, which is therefore never
invoked. -/
theorem empty_batch_no_action (format : DownloadFormat)
    (encode : AudioBuffer → Except Unit (List ℕ)) :
    handleDownloadAll format encode [] = .noAction := rfl

end SentenceSplitter
